import Mathlib

/-
Verification development for the LearnUs toolkit (src/web/app.py).

The file shallowly embeds the parts of the Flask application that the
specification talks about:
  - the string helpers and the section/lecture reconciliation loop of
    fetch_all_courses (app.py lines 291-349) and refresh_course
    (lines 482-542);
  - the course-catalog cache of fetch_all_courses (lines 222-249 and
    368-380);
  - the task registry records and the control endpoints pause_task,
    resume_task, cancel_task (lines 780-818);
  - the batch download worker download_task (lines 595-759) as a small-step
    machine whose steps interleave with control requests;
  - the materials worker download_materials_task (lines 1959-2124) as a
    sequential function (that worker never consults the pause/stop flags).

Python strings are modelled as lists of characters.  Unicode-dependent
predicates (str.isalnum, str.lower, str.strip) are modelled on the character
classes actually exercised by the repository: ASCII plus Hangul syllables.
-/

/-! ## Python string primitives -/

/-- Characters of a Python string, modelled as a list. -/
abbrev Str := List Char

/-- Convert a Lean string literal to the character-list model. -/
def strL (s : String) : Str := s.data

/-- Python `needle in haystack` substring containment (the empty needle is
contained in every string). -/
def isSubstring (n : Str) : Str → Bool
  | [] => n.isEmpty
  | c :: t => n.isPrefixOf (c :: t) || isSubstring n t

/-- Python `s.lower()` on the character classes used here (ASCII letters;
Hangul and punctuation are unaffected). -/
def pyLower (s : Str) : Str := s.map Char.toLower

/-- Python `c.isalnum()` restricted to the character classes exercised by the
repository: ASCII alphanumerics and Hangul syllables (U+AC00 - U+D7A3). -/
def pyIsAlnumChar (c : Char) : Bool :=
  c.isAlphanum || (0xAC00 ≤ c.toNat && c.toNat ≤ 0xD7A3)

/-- The helper `normalize` of fetch_all_courses / refresh_course:
`''.join(e for e in s if e.isalnum()).lower()`. -/
def normalizeStr (s : Str) : Str := pyLower (s.filter pyIsAlnumChar)

/-- Python `s.replace('week', '')`: one left-to-right scan that deletes each
occurrence of `week` and does not rescan the produced text. -/
def stripWeekWord : Str → Str
  | 'w' :: 'e' :: 'e' :: 'k' :: rest => stripWeekWord rest
  | c :: rest => c :: stripWeekWord rest
  | [] => []

/-- A whitespace character in the sense of Python `str.strip()`, on the
character classes used here. -/
def isPySpace (c : Char) : Bool :=
  c == ' ' || c == '\t' || c == '\n' || c == '\r'

/-- Python `s.strip()`: drop whitespace from both ends. -/
def pyStrip (s : Str) : Str :=
  ((s.dropWhile isPySpace).reverse.dropWhile isPySpace).reverse

/-! ## Catalog reconciler (fetch_all_courses lines 291-349) -/

/-- A scraped lecture record; equality of records models CPython object
identity, which is how the source compares lectures (`v in remaining_lectures`
and `remaining_lectures.remove(v)` on plain objects). -/
structure Lecture where
  lecture_id : Nat
  title : Str
  week : Str
deriving DecidableEq, Repr

/-- A declared section as returned by `parse_course_content`. -/
structure RawSection where
  title : Str
  materials : List Str
  assignments : List Str
deriving DecidableEq, Repr

/-- An output section of the reconciler, with the lectures assigned to it. -/
structure Sec where
  title : Str
  videos : List Lecture
  materials : List Str
  assignments : List Str
deriving DecidableEq, Repr

/-- An empty output section, used as the default of positional lookups. -/
def emptySec : Sec := ⟨[], [], [], []⟩

/-- The per-section match test of the reconciler:
`lecture.week in sec_title or normalize(lecture.week) in normalize(sec_title)`
and the fallback
`lecture.week.lower().replace('week', '').strip() in sec_title`.
A lecture is collected exactly when the `if` or the `elif` condition holds. -/
def matchesSection (week : Str) (secTitle : Str) : Bool :=
  (isSubstring week secTitle || isSubstring (normalizeStr week) (normalizeStr secTitle))
    || isSubstring (pyStrip (stripWeekWord (pyLower week))) secTitle

/-- The `found_videos` scan: every not-yet-assigned lecture that passes the
match test, in pool order. -/
def foundVideos (remaining : List Lecture) (secTitle : Str) : List Lecture :=
  remaining.filter (fun l => matchesSection l.week secTitle)

/-- The removal loop: `for v in found_videos: if v in remaining_lectures:
remaining_lectures.remove(v); sec_videos.append(...)`. -/
def removeFound : List Lecture → List Lecture × List Lecture → List Lecture × List Lecture
  | [], st => st
  | v :: vs, (rem, vids) =>
    if v ∈ rem then removeFound vs (rem.erase v, vids ++ [v])
    else removeFound vs (rem, vids)

/-- Processing of one declared section: collect the matching lectures, remove
them from the pool, and emit the section with its videos. -/
def processSection (rem : List Lecture) (sec : RawSection) : List Lecture × Sec :=
  let fnd := foundVideos rem sec.title
  let p := removeFound fnd (rem, [])
  (p.1, ⟨sec.title, p.2, sec.materials, sec.assignments⟩)

/-- Title of the synthetic section created when no sections were declared. -/
def generalTitle : Str := strL "General"

/-- Title of the synthetic catch-all section. -/
def otherTitle : Str := strL "Other Videos"

/-- Recursive presentation of the section loop, used by the proofs. -/
def reconLoop : List Lecture → List RawSection → List Lecture × List Sec
  | rem, [] => (rem, [])
  | rem, sec :: rest =>
    let p := processSection rem sec
    let q := reconLoop p.1 rest
    (q.1, p.2 :: q.2)

/-- The reconciliation of fetch_all_courses (lines 291-349) and refresh_course
(lines 482-542): substitute a synthetic `General` section when none were
declared but lectures exist, assign each section its matching lectures in
declared order, and append an `Other Videos` catch-all holding the leftover
pool when it is non-empty. -/
def reconcile (sectionsRaw : List RawSection) (lectures : List Lecture) : List Sec :=
  let sr := if sectionsRaw.isEmpty && !lectures.isEmpty
            then [⟨generalTitle, [], []⟩] else sectionsRaw
  let p := sr.foldl
    (fun st sec =>
      let q := processSection st.1 sec
      (q.1, st.2 ++ [q.2]))
    ((lectures, []) : List Lecture × List Sec)
  if p.1.isEmpty then p.2 else p.2 ++ [⟨otherTitle, p.1, [], []⟩]

/-- All lectures that ended up in some output section. -/
def allVideos (secs : List Sec) : List Lecture := secs.flatMap Sec.videos

/-! ## Catalog cache (fetch_all_courses lines 222-249 and 368-380) -/

/-- The pickled cache file `courses_cache.pkl`: the reconciled payload, the
authentication cookies of the caller that stored it, and its write time
(the file modification time the read path compares against). -/
structure CacheEntry (β : Type) where
  courses_data : List β
  auth_cookies : List (String × String)
  timestamp : Nat
deriving DecidableEq, Repr

/-- The JSON response of fetch_all_courses: the hit path adds a
`from_cache: true` key that the fresh path does not emit. -/
structure FetchResp (β : Type) where
  success : Bool
  courses : List β
  total_courses : Nat
  from_cache : Option Bool
deriving DecidableEq, Repr

/-- The cache-or-refresh core of fetch_all_courses.  Inputs: the current
cache file (if any), the current time, the cookies of the authenticated
session, the `force_refresh` query flag, the course list already scraped by
`parse_course_list`, and the payload a fresh per-course parse would produce.
Output: the response, the cache file afterwards, and the number of courses
put through the per-course parsers (`parse_course_content` +
`parse_lecture_list`); a cache hit performs none of those secondary calls
and returns the stored payload unchanged. -/
def fetch_all_courses {β : Type} (cache : Option (CacheEntry β)) (now : Nat)
    (cookies : List (String × String)) (force_refresh : Bool)
    (allCoursesCount : Nat) (fresh : List β) :
    FetchResp β × Option (CacheEntry β) × Nat :=
  match cache, force_refresh with
  | some e, false =>
    if now - e.timestamp < 3600 && e.auth_cookies == cookies then
      (⟨true, e.courses_data, e.courses_data.length, some true⟩, some e, 0)
    else
      (⟨true, fresh, fresh.length, none⟩, some ⟨fresh, cookies, now⟩, allCoursesCount)
  | _, _ =>
      (⟨true, fresh, fresh.length, none⟩, some ⟨fresh, cookies, now⟩, allCoursesCount)

/-! ## Task registry records and control endpoints (app.py lines 580-818) -/

/-- The `status` string of a task record. -/
inductive JStatus
  | running | completed | error | stopped | cancelled
deriving DecidableEq, Repr

/-- A terminal status: one the spec calls Completed, Error or Stopped (the
source uses both `stopped` and `cancelled` strings for the latter). -/
def JStatus.isTerminal : JStatus → Bool
  | .running => false
  | _ => true

/-- A task record of the `task_status` registry.  The source stores a dict;
fields missing from a particular task kind are modelled by their Python
defaults (`.get(key, False)` reads). -/
structure TaskStatus where
  status : JStatus
  progress : Nat
  total : Nat
  completed : Nat
  failed : Nat
  messages : List String
  paused : Bool
  stopped : Bool
  current_lecture_index : Nat
  current_item : String
  items : List (Nat × String)
deriving DecidableEq, Repr

/-- The record created by download_lectures (lines 582-593) for a batch job
over `n` selected lectures. -/
def initDownloadTask (n : Nat) : TaskStatus :=
  ⟨.running, 0, n, 0, 0, [], false, false, 0, "", []⟩

/-- Endpoint pause_task (lines 780-791): reject an unknown id, reject a task
whose status is not `running`, otherwise set the pause flag and log. -/
def pause_task : Option TaskStatus → (Bool × String) × Option TaskStatus
  | none => ((false, "Task not found"), none)
  | some t =>
    if t.status ≠ JStatus.running then ((false, "Task is not running"), some t)
    else ((true, "Task paused"),
      some { t with paused := true, messages := t.messages ++ ["Task paused by user"] })

/-- Endpoint resume_task (lines 794-805): reject an unknown id, reject a task
whose status is not `running`, otherwise clear the pause flag and log. -/
def resume_task : Option TaskStatus → (Bool × String) × Option TaskStatus
  | none => ((false, "Task not found"), none)
  | some t =>
    if t.status ≠ JStatus.running then ((false, "Task is not running"), some t)
    else ((true, "Task resumed"),
      some { t with paused := false, messages := t.messages ++ ["Task resumed by user"] })

/-- Endpoint cancel_task (lines 808-818): reject an unknown id; for any
existing task, with no check of its current status, set the stop flag, clear
the pause flag, and set the status to `cancelled`. -/
def cancel_task : Option TaskStatus → (Bool × String) × Option TaskStatus
  | none => ((false, "Task not found"), none)
  | some t => ((true, "Task cancelled"),
      some { t with
        stopped := true,
        paused := false,
        status := JStatus.cancelled,
        messages := t.messages ++ ["Task cancelled by user"] })

/-! ## Batch download worker download_task (app.py lines 595-759)

The worker is embedded as a small-step machine.  One `work` event performs
one atomic block of the worker: one flag check at an item boundary, one poll
of the pause loop, one whole item body (the source holds no lock, but the
flags are read only at these points and the counts are written only by the
worker, so this is the grain at which control requests interleave). -/

/-- The outcome of one item body, abstracting the collaborator calls of the
web build (where transcriber, summarizer and analyzer are `None`):
the lecture id is absent from the cache, `extract_video_url` returns nothing,
`download_video` succeeds, `download_video` returns false, or a collaborator
raises and the per-item `except` catches it. -/
inductive ItemOutcome
  | notFound | noUrl | dlSuccess | dlFail | raiseErr
deriving DecidableEq, Repr

/-- The environment of one run of download_task: the outcome each item body
would produce, whether the requested options need local processing
(transcribe/summarize-audio/analyze, rejected by the web build), and whether
the scraper/downloader construction raises. -/
structure DLEnv where
  outcomes : List ItemOutcome
  reqLocal : Bool
  setupFails : Bool
deriving DecidableEq, Repr

/-- Program counter of the worker: the setup prologue, the stop check at the
top of iteration `idx` (lines 614-617), the pause poll (lines 620-621), the
re-check after the poll (lines 624-627), the item body, the epilogue after
the loop (lines 754-755), and termination. -/
inductive WPC
  | setup
  | checkStop (idx : Nat)
  | pauseWait (idx : Nat)
  | checkStop2 (idx : Nat)
  | processItem (idx : Nat)
  | finish
  | done
deriving DecidableEq, Repr

/-- Worker-local state: the program counter and the local `completed` and
`failed` counters of download_task (distinct from the registry fields, which
the worker copies out only on the lines 747-748 update). -/
structure WState where
  pc : WPC
  loc_completed : Nat
  loc_failed : Nat
deriving DecidableEq, Repr

/-- A whole system: the environment, the shared registry record, and the
worker. -/
structure Sys where
  env : DLEnv
  task : TaskStatus
  w : WState
deriving DecidableEq, Repr

/-- Effect of one item body (lines 629-752) on the registry record and the
local counters, given the outcome.  Failure paths that `continue` (not
found, no url) and the per-item `except` handler do not execute the
lines 746-748 progress update, so only the success and download-failure
paths copy the local counters into the registry. -/
def itemEffect (t : TaskStatus) (lc lf n idx : Nat) (o : ItemOutcome) :
    TaskStatus × Nat × Nat :=
  match o with
  | .notFound =>
    ({ t with messages := t.messages ++ ["Lecture not found"] }, lc, lf + 1)
  | .noUrl =>
    ({ t with messages := t.messages ++
        ["Extracting video URL", "Failed to extract video URL"] }, lc, lf + 1)
  | .dlSuccess =>
    ({ t with
        messages := t.messages ++ ["Extracting video URL", "Downloading", "Downloaded"],
        progress := (idx + 1) * 100 / n,
        completed := lc + 1,
        failed := lf }, lc + 1, lf)
  | .dlFail =>
    ({ t with
        messages := t.messages ++ ["Extracting video URL", "Downloading", "Failed to download"],
        progress := (idx + 1) * 100 / n,
        completed := lc,
        failed := lf + 1 }, lc, lf + 1)
  | .raiseErr =>
    ({ t with messages := t.messages ++ ["Error processing lecture"] }, lc, lf + 1)

/-- One atomic worker step of download_task. -/
def workStep (s : Sys) : Sys :=
  match s.w.pc with
  | .setup =>
    if s.env.setupFails then
      { s with
          task := { s.task with
            status := .error,
            messages := s.task.messages ++ ["Task error"] },
          w := { s.w with pc := .done } }
    else if s.env.reqLocal then
      { s with
          task := { s.task with
            status := .error,
            messages := s.task.messages ++
              ["Transcription and analysis are not available in web version"] },
          w := { s.w with pc := .done } }
    else
      { s with
          w := { s.w with
            pc := if s.env.outcomes.isEmpty then .finish else .checkStop 0 } }
  | .checkStop idx =>
    if s.task.stopped then
      { s with
          task := { s.task with
            status := .stopped,
            messages := s.task.messages ++ ["Download stopped by user"] },
          w := { s.w with pc := .finish } }
    else { s with w := { s.w with pc := .pauseWait idx } }
  | .pauseWait idx =>
    if s.task.paused && !s.task.stopped then s
    else { s with w := { s.w with pc := .checkStop2 idx } }
  | .checkStop2 idx =>
    if s.task.stopped then
      { s with
          task := { s.task with
            status := .stopped,
            messages := s.task.messages ++ ["Download stopped by user"] },
          w := { s.w with pc := .finish } }
    else { s with w := { s.w with pc := .processItem idx } }
  | .processItem idx =>
    let n := s.env.outcomes.length
    let o := s.env.outcomes.getD idx .raiseErr
    let t1 := { s.task with current_lecture_index := idx }
    let r := itemEffect t1 s.w.loc_completed s.w.loc_failed n idx o
    { s with
        task := r.1,
        w := ⟨if idx + 1 < n then .checkStop (idx + 1) else .finish, r.2.1, r.2.2⟩ }
  | .finish =>
    { s with
        task := { s.task with
          status := .completed,
          messages := s.task.messages ++ ["All downloads completed"] },
        w := { s.w with pc := .done } }
  | .done => s

/-- An event of the interleaved execution: one worker step or one control
request against the job. -/
inductive Ev
  | work | pauseReq | resumeReq | cancelReq
deriving DecidableEq, Repr

/-- Apply a control endpoint to the registry record of the system. -/
def applyCtrl (f : Option TaskStatus → (Bool × String) × Option TaskStatus)
    (s : Sys) : Sys :=
  match (f (some s.task)).2 with
  | some t => { s with task := t }
  | none => s

/-- One step of the interleaved system. -/
def sysStep (s : Sys) : Ev → Sys
  | .work => workStep s
  | .pauseReq => applyCtrl pause_task s
  | .resumeReq => applyCtrl resume_task s
  | .cancelReq => applyCtrl cancel_task s

/-- Run a schedule of events. -/
def sysRun (s : Sys) (evs : List Ev) : Sys := evs.foldl sysStep s

/-- The system at job creation: the registry record of download_lectures and
the worker about to execute the prologue. -/
def initSys (env : DLEnv) : Sys :=
  ⟨env, initDownloadTask env.outcomes.length, ⟨.setup, 0, 0⟩⟩

/-! ## Materials worker download_materials_task (app.py lines 1959-2124)

This worker reads neither the pause flag nor the stop flag, so it is
embedded directly as a function from its inputs to the final registry
record. -/

/-- One downloadable file: its name, whether its target path already exists
on disk, and whether `download_file` would succeed. -/
structure MatFile where
  name : String
  onDisk : Bool
  dlOk : Bool
deriving DecidableEq, Repr

/-- A material of a section: a plain file, or a folder that
`parse_folder_page` expands into a description and a file list. -/
inductive MatItem
  | file (f : MatFile)
  | folder (hasDesc : Bool) (files : List MatFile)
deriving DecidableEq, Repr

/-- An assignment: its description, requirement files and submission files as
returned by `parse_assignment_page`. -/
structure MatAssign where
  name : String
  hasDesc : Bool
  requirements : List MatFile
  submissions : List MatFile
deriving DecidableEq, Repr

/-- A section of the course content: title, materials and assignments. -/
structure MatSection where
  title : String
  materials : List MatItem
  assignments : List MatAssign
deriving DecidableEq, Repr

/-- The record created by download_materials (lines 1950-1957); the dict has
no paused/stopped/items keys, modelled by their default reads. -/
def initMaterialsTask : TaskStatus :=
  ⟨.running, 0, 0, 0, 0, ["Fetching course content..."], false, false, 0, "", []⟩

/-- The file loop inside a folder (lines 2039-2048): a file not on disk is
downloaded and counted as completed or failed; a file already on disk is
counted as completed. -/
def matFolderFile (t : TaskStatus) (f : MatFile) : TaskStatus :=
  if !f.onDisk then
    if f.dlOk then
      { t with
        messages := t.messages ++ ["Downloading from folder: " ++ f.name],
        completed := t.completed + 1 }
    else
      { t with
        messages := t.messages ++ ["Downloading from folder: " ++ f.name],
        failed := t.failed + 1 }
  else { t with completed := t.completed + 1 }

/-- A requirement or submission file of an assignment (lines 2091-2112). -/
def matAssignFile (t : TaskStatus) (kind : String) (f : MatFile) : TaskStatus :=
  if !f.onDisk then
    if f.dlOk then
      { t with
        messages := t.messages ++ ["Downloading " ++ kind ++ ": " ++ f.name],
        completed := t.completed + 1 }
    else
      { t with
        messages := t.messages ++ ["Downloading " ++ kind ++ ": " ++ f.name],
        failed := t.failed + 1 }
  else { t with completed := t.completed + 1 }

/-- Python `total_items or 1`, the guard of the progress division. -/
def orOne (n : Nat) : Nat := if n = 0 then 1 else n

/-- One material (lines 2011-2065): bump the processed counter and progress;
a folder is expanded and every contained file is counted, a plain file is
counted once. -/
def matProcessMaterial (total : Nat) (st : TaskStatus × Nat) (m : MatItem) :
    TaskStatus × Nat :=
  let pc := st.2 + 1
  let mName := match m with | .file f => f.name | .folder _ _ => "folder"
  let t0 := { st.1 with
    current_item := mName,
    progress := pc * 100 / orOne total }
  match m with
  | .folder hasDesc files =>
    let t1 := { t0 with messages := t0.messages ++ ["Parsing folder"] }
    let t2 := if hasDesc
      then { t1 with messages := t1.messages ++ ["Saved folder description"] }
      else t1
    (files.foldl matFolderFile t2, pc)
  | .file f =>
    if !f.onDisk then
      let t1 := { t0 with messages := t0.messages ++ ["Downloading file: " ++ f.name] }
      if f.dlOk then ({ t1 with completed := t1.completed + 1 }, pc)
      else ({ t1 with
        failed := t1.failed + 1,
        messages := t1.messages ++ ["Failed to download: " ++ f.name] }, pc)
    else
      ({ t0 with
        messages := t0.messages ++ ["File exists: " ++ f.name],
        completed := t0.completed + 1 }, pc)

/-- One assignment (lines 2068-2114): bump the processed counter and
progress, save the description, count every requirement and submission file,
and finally count the assignment itself once more (line 2114). -/
def matProcessAssign (total : Nat) (st : TaskStatus × Nat) (a : MatAssign) :
    TaskStatus × Nat :=
  let pc := st.2 + 1
  let t0 := { st.1 with
    current_item := a.name,
    progress := pc * 100 / orOne total,
    messages := st.1.messages ++ ["Processing assignment: " ++ a.name] }
  let t1 := if a.hasDesc
    then { t0 with messages := t0.messages ++ ["Saved assignment description"] }
    else t0
  let t2 := a.requirements.foldl (fun t f => matAssignFile t "requirement" f) t1
  let t3 := a.submissions.foldl (fun t f => matAssignFile t "submission" f) t2
  ({ t3 with completed := t3.completed + 1 }, pc)

/-- One section of the materials loop (lines 2006-2114). -/
def matProcessSection (total : Nat) (st : TaskStatus × Nat) (sec : MatSection) :
    TaskStatus × Nat :=
  let st1 := sec.materials.foldl (matProcessMaterial total) st
  sec.assignments.foldl (matProcessAssign total) st1

/-- The worker download_materials_task (lines 1959-2124).  `total` is set
once from the declared material and assignment counts (line 1984 computes it
before folders are expanded, and nothing updates it afterwards); the final
status is `completed`. -/
def download_materials_task (t0 : TaskStatus) (contentError : Bool)
    (sections : List MatSection) : TaskStatus :=
  if contentError then
    { t0 with status := .error, messages := t0.messages ++ ["Error: content"] }
  else
    let total := (sections.map
      (fun s => s.materials.length + s.assignments.length)).sum
    let t1 := { t0 with
      total := total,
      messages := t0.messages ++ ["Found items to process"] }
    let t2 := (sections.foldl (matProcessSection total) (t1, 0)).1
    { t2 with
      status := .completed,
      messages := t2.messages ++ ["Download materials task completed"] }

/-! ## Auxiliary definitions used by the statements and proofs -/

/-- A raw section with every field empty, used as the default of positional
lookups. -/
def emptyRawSection : RawSection := ⟨[], [], []⟩

/-- Replace the pause and stop flags of a system, leaving everything else in
place; used to state that the item body never consults them. -/
def setFlags (s : Sys) (p q : Bool) : Sys :=
  { s with task := { s.task with paused := p, stopped := q } }

/-- The single-writer invariant of the registry record: the `completed`
field the pollers see never runs ahead of the local counter of the worker
(the worker only ever copies the local counter out). -/
def sysInv (s : Sys) : Prop := s.task.completed ≤ s.w.loc_completed

/-- Number of items the worker can still complete once the stop flag is up:
only an item body already past both stop checks. -/
def allowStop (s : Sys) : Nat :=
  match s.w.pc with
  | .processItem _ => 1
  | _ => 0

/-- Number of items the worker can still complete once the pause flag is up
(and no stop): an item whose pause poll has already been passed. -/
def allowPause (s : Sys) : Nat :=
  match s.w.pc with
  | .processItem _ => 1
  | .checkStop2 _ => 1
  | _ => 0

/-- Items of a batch whose body ends in a successful download. -/
def succCount (os : List ItemOutcome) : Nat :=
  os.countP (fun o => o == ItemOutcome.dlSuccess)

/-- Items of a batch whose body takes any failure path. -/
def failCount (os : List ItemOutcome) : Nat :=
  os.countP (fun o => o != ItemOutcome.dlSuccess)

/-! ### Concrete inputs used by counterexamples and witnesses -/

/-- A lecture whose week label defeats the literal reading of the fallback
match rule: stripping the word `week` case-sensitively leaves it unchanged. -/
def lecWeekA : Lecture := ⟨1, strL "t", strL "WeekA"⟩

/-- A section title that the code-side fallback rule matches against
`WeekA` (the lowercased residue `a` occurs in it). -/
def secPartA : RawSection := ⟨strL "Part a", [], []⟩

/-- The lectures of spec Scenario C. -/
def lecturesScenC : List Lecture :=
  [⟨1, strL "t1", strL "1주차"⟩, ⟨2, strL "t2", strL "2주차"⟩, ⟨3, strL "t3", strL "Extra"⟩]

/-- The declared sections of spec Scenario C. -/
def sectionsScenC : List RawSection :=
  [⟨strL "1주차: Intro", [], []⟩, ⟨strL "2주차: Data", [], []⟩]

/-- A materials course with one declared material: a folder holding two
files, neither on disk, both downloadable. -/
def matSectionsFolder : List MatSection :=
  [⟨"W1", [.folder false [⟨"f1", false, true⟩, ⟨"f2", false, true⟩]], []⟩]

/-- A finished batch task record (all of its one item downloaded). -/
def taskCompleted1 : TaskStatus :=
  { initDownloadTask 1 with status := .completed, completed := 1, progress := 100 }

/-- A batch environment with a single item whose download fails. -/
def envOneFail : DLEnv := ⟨[.dlFail], false, false⟩

/-- A batch environment with three items that all download. -/
def envThreeOk : DLEnv := ⟨[.dlSuccess, .dlSuccess, .dlSuccess], false, false⟩

/-! ## Lemmas about the string primitives -/

/-- The empty needle is a substring of every string, as in Python. -/
theorem isSubstring_nil (t : Str) : isSubstring [] t = true := by
  cases t <;> simp [isSubstring, List.isPrefixOf]

/-! ## Lemmas about the reconciler -/

/-- Removal skips over a pool head that is not among the found lectures. -/
theorem removeFound_cons_notMem (fnd : List Lecture) (c : Lecture) :
    ∀ rem vids, c ∉ fnd →
    removeFound fnd (c :: rem, vids) =
      (c :: (removeFound fnd (rem, vids)).1, (removeFound fnd (rem, vids)).2) := by
  induction fnd with
  | nil => intro rem vids _; simp [removeFound]
  | cons v vs ih =>
    intro rem vids h
    have hvc : ¬ v = c := fun e => h (e ▸ List.mem_cons_self v vs)
    have hcvs : c ∉ vs := fun hm => h (List.mem_cons_of_mem _ hm)
    by_cases hv : v ∈ rem
    · have hv' : v ∈ c :: rem := List.mem_cons_of_mem _ hv
      rw [removeFound, if_pos hv', removeFound, if_pos hv,
        List.erase_cons_tail]
      · exact ih _ _ hcvs
      · simp only [beq_iff_eq]
        exact fun e => hvc e.symm
    · have hv' : v ∉ c :: rem := by
        intro hm
        rcases List.mem_cons.mp hm with e | e
        · exact hvc e
        · exact hv e
      rw [removeFound, if_neg hv', removeFound, if_neg hv]
      exact ih _ _ hcvs

/-- On a duplicate-free pool, the removal loop run on the matching lectures
splits the pool into the non-matching rest and appends the matching ones. -/
theorem removeFound_filter (P : Lecture → Bool) :
    ∀ (l : List Lecture) (vids : List Lecture), l.Nodup →
    removeFound (l.filter P) (l, vids) =
      (l.filter (fun x => !P x), vids ++ l.filter P) := by
  intro l
  induction l with
  | nil => intro vids _; simp [removeFound]
  | cons c t ih =>
    intro vids h
    have hct : c ∉ t := (List.nodup_cons.mp h).1
    have ht : t.Nodup := (List.nodup_cons.mp h).2
    by_cases hPc : P c
    · have hc : c ∈ c :: t := List.mem_cons_self c t
      rw [List.filter_cons_of_pos hPc, removeFound, if_pos hc,
        List.erase_cons_head, ih _ ht]
      simp [hPc]
    · have hcf : c ∉ t.filter P := fun hm => hct (List.mem_of_mem_filter hm)
      rw [List.filter_cons_of_neg (by simpa using hPc),
        removeFound_cons_notMem _ _ _ _ hcf, ih _ ht]
      simp [hPc]

/-- On a duplicate-free pool, one section step filters the pool. -/
theorem processSection_eq (rem : List Lecture) (sec : RawSection) (h : rem.Nodup) :
    processSection rem sec =
      (rem.filter (fun x => !matchesSection x.week sec.title),
       ⟨sec.title, rem.filter (fun x => matchesSection x.week sec.title),
        sec.materials, sec.assignments⟩) := by
  simp only [processSection, foundVideos]
  rw [removeFound_filter _ _ _ h]
  simp

/-- The removal loop only rearranges lectures: pool plus collected videos is
a permutation of what it started from. -/
theorem removeFound_perm : ∀ (fnd rem vids : List Lecture),
    List.Perm ((removeFound fnd (rem, vids)).1 ++ (removeFound fnd (rem, vids)).2)
      (rem ++ vids) := by
  intro fnd
  induction fnd with
  | nil => intro rem vids; simp [removeFound]
  | cons v vs ih =>
    intro rem vids
    by_cases hv : v ∈ rem
    · rw [removeFound, if_pos hv]
      refine (ih _ _).trans ?_
      have h1 : List.Perm (rem.erase v ++ (vids ++ [v])) (v :: (rem.erase v ++ vids)) := by
        rw [← List.append_assoc]
        exact List.perm_append_singleton _ _
      have h2 : List.Perm ((v :: rem.erase v) ++ vids) (rem ++ vids) :=
        List.Perm.append_right vids (List.perm_cons_erase hv).symm
      exact h1.trans h2
    · rw [removeFound, if_neg hv]
      exact ih _ _

/-- The foldl of the source equals the recursive presentation. -/
theorem reconLoop_eq_foldl : ∀ (sr : List RawSection) (rem : List Lecture)
    (acc : List Sec),
    sr.foldl (fun st sec =>
        let q := processSection st.1 sec
        (q.1, st.2 ++ [q.2])) (rem, acc) =
      ((reconLoop rem sr).1, acc ++ (reconLoop rem sr).2) := by
  intro sr
  induction sr with
  | nil => intro rem acc; simp [reconLoop]
  | cons sec rest ih =>
    intro rem acc
    simp only [List.foldl_cons, reconLoop, ih]
    simp

/-- `reconcile` through the recursive loop. -/
theorem reconcile_via_loop (sr : List RawSection) (ls : List Lecture) :
    reconcile sr ls =
      (let sr2 := if sr.isEmpty && !ls.isEmpty then [⟨generalTitle, [], []⟩] else sr
       if (reconLoop ls sr2).1.isEmpty then (reconLoop ls sr2).2
       else (reconLoop ls sr2).2 ++ [⟨otherTitle, (reconLoop ls sr2).1, [], []⟩]) := by
  simp only [reconcile, reconLoop_eq_foldl, List.nil_append]

/-- The section loop emits one section per declared section. -/
theorem reconLoop_length : ∀ (sr : List RawSection) (rem : List Lecture),
    (reconLoop rem sr).2.length = sr.length := by
  intro sr
  induction sr with
  | nil => intro rem; simp [reconLoop]
  | cons sec rest ih => intro rem; simp [reconLoop, ih]

/-- The section loop only rearranges lectures. -/
theorem reconLoop_perm : ∀ (sr : List RawSection) (rem : List Lecture),
    List.Perm (allVideos (reconLoop rem sr).2 ++ (reconLoop rem sr).1) rem := by
  intro sr
  induction sr with
  | nil => intro rem; simp [reconLoop, allVideos]
  | cons sec rest ih =>
    intro rem
    have hps : List.Perm ((processSection rem sec).2.videos ++ (processSection rem sec).1)
        rem := by
      have h0 := removeFound_perm (foundVideos rem sec.title) rem []
      simp only [List.append_nil] at h0
      exact (List.perm_append_comm).trans h0
    simp only [reconLoop, allVideos, List.flatMap_cons]
    rw [List.append_assoc]
    exact (List.Perm.append_left _ (ih _)).trans hps

/-- The whole reconciliation is a permutation of the lecture list. -/
theorem reconcile_perm (sr : List RawSection) (ls : List Lecture) :
    List.Perm (allVideos (reconcile sr ls)) ls := by
  rw [reconcile_via_loop]
  set sr2 := if sr.isEmpty && !ls.isEmpty then [⟨generalTitle, [], []⟩] else sr with hsr2
  by_cases hrem : (reconLoop ls sr2).1.isEmpty = true
  · rw [if_pos hrem]
    have h := reconLoop_perm sr2 ls
    rw [List.isEmpty_iff.mp hrem] at h
    simpa using h
  · rw [if_neg hrem]
    have h := reconLoop_perm sr2 ls
    have he : allVideos ((reconLoop ls sr2).2 ++ [⟨otherTitle, (reconLoop ls sr2).1, [], []⟩])
        = allVideos (reconLoop ls sr2).2 ++ (reconLoop ls sr2).1 := by
      simp [allVideos]
    rw [he]
    exact h

/-- On a duplicate-free pool, the leftover pool after all sections is exactly
the set of lectures matching no declared section, in pool order. -/
theorem reconLoop_rem : ∀ (sr : List RawSection) (rem : List Lecture), rem.Nodup →
    (reconLoop rem sr).1 =
      rem.filter (fun l => sr.all (fun sec => !matchesSection l.week sec.title)) := by
  intro sr
  induction sr with
  | nil => intro rem _; simp [reconLoop]
  | cons sec rest ih =>
    intro rem h
    simp only [reconLoop, processSection_eq rem sec h]
    rw [ih _ (h.filter _)]
    rw [List.filter_filter]
    apply List.filter_congr
    intro x _
    simp [Bool.and_comm]

/-- Position `i` of the section-loop output holds the lectures that match
declared section `i` and no earlier declared section. -/
theorem reconLoop_mem_videos : ∀ (sr : List RawSection) (rem : List Lecture)
    (i : Nat) (l : Lecture), rem.Nodup → i < sr.length →
    (l ∈ ((reconLoop rem sr).2.getD i emptySec).videos ↔
      l ∈ rem ∧ matchesSection l.week ((sr.getD i emptyRawSection).title) = true ∧
        ∀ j, j < i → matchesSection l.week ((sr.getD j emptyRawSection).title) = false) := by
  intro sr
  induction sr with
  | nil => intro rem i l _ hi; exact absurd hi (by simp)
  | cons sec rest ih =>
    intro rem i l h hi
    cases i with
    | zero =>
      simp only [reconLoop, processSection_eq rem sec h, List.getD_cons_zero]
      simp [List.mem_filter]
    | succ i =>
      have hrest : i < rest.length := by simpa using hi
      simp only [reconLoop, processSection_eq rem sec h, List.getD_cons_succ]
      rw [ih _ i l ((h.filter _)) hrest]
      constructor
      · rintro ⟨hmem, hmi, hprev⟩
        have hmem' := List.mem_filter.mp hmem
        refine ⟨hmem'.1, hmi, ?_⟩
        intro j hj
        cases j with
        | zero =>
          simpa using hmem'.2
        | succ j =>
          exact hprev j (Nat.lt_of_succ_lt_succ hj)
      · rintro ⟨hmem, hmi, hprev⟩
        refine ⟨List.mem_filter.mpr ⟨hmem, ?_⟩, hmi, ?_⟩
        · have h0 := hprev 0 (Nat.succ_pos _)
          simpa using h0
        · intro j hj
          exact hprev (j + 1) (Nat.succ_lt_succ hj)

/-- With at least one declared section, `reconcile` does not substitute the
synthetic General section. -/
theorem reconcile_of_ne (sr : List RawSection) (ls : List Lecture) (h : sr ≠ []) :
    reconcile sr ls =
      (if (reconLoop ls sr).1.isEmpty then (reconLoop ls sr).2
       else (reconLoop ls sr).2 ++ [⟨otherTitle, (reconLoop ls sr).1, [], []⟩]) := by
  rw [reconcile_via_loop]
  have : sr.isEmpty = false := by
    cases sr with
    | nil => exact absurd rfl h
    | cons a b => rfl
  simp [this]

/-- Position `i < sr.length` of the full reconciliation output is position
`i` of the section loop (the catch-all, if present, sits after them). -/
theorem reconcile_getD (sr : List RawSection) (ls : List Lecture) (i : Nat)
    (h : sr ≠ []) (hi : i < sr.length) :
    (reconcile sr ls).getD i emptySec = (reconLoop ls sr).2.getD i emptySec := by
  rw [reconcile_of_ne sr ls h]
  by_cases hrem : (reconLoop ls sr).1.isEmpty = true
  · rw [if_pos hrem]
  · rw [if_neg hrem]
    have hlen : i < (reconLoop ls sr).2.length := by
      rw [reconLoop_length]; exact hi
    rw [List.getD_append _ _ _ _ hlen]

/-- Everything after the declared sections in the reconciliation output is
the catch-all (empty when the pool was exhausted). -/
theorem reconcile_drop (sr : List RawSection) (ls : List Lecture) (h : sr ≠ []) :
    (reconcile sr ls).drop sr.length =
      (if (reconLoop ls sr).1.isEmpty then []
       else [⟨otherTitle, (reconLoop ls sr).1, [], []⟩]) := by
  rw [reconcile_of_ne sr ls h]
  by_cases hrem : (reconLoop ls sr).1.isEmpty = true
  · rw [if_pos hrem, if_pos hrem]
    rw [← reconLoop_length sr ls, List.drop_length]
  · rw [if_neg hrem, if_neg hrem]
    have : sr.length = (reconLoop ls sr).2.length := (reconLoop_length sr ls).symm
    rw [this, List.drop_left]

/-! ## Claim C3: reconciliation partitions the lecture list -/

/-- C3: for every course with a flat lecture list and a declared section
list, the union of the per-section video lists plus the catch-all contains
exactly the input lectures, each lecture id exactly once when ids are
duplicate-free; and when no sections were declared but lectures exist, the
synthetic General section is used. -/
theorem C3_reconcile_partition (sr : List RawSection) (ls : List Lecture) :
    List.Perm (allVideos (reconcile sr ls)) ls ∧
    ((ls.map Lecture.lecture_id).Nodup →
      ((allVideos (reconcile sr ls)).map Lecture.lecture_id).Nodup ∧
      ∀ l ∈ ls, (allVideos (reconcile sr ls)).count l = 1) ∧
    (sr = [] → ls ≠ [] →
      ((reconcile sr ls).getD 0 emptySec).title = generalTitle) := by
  refine ⟨reconcile_perm sr ls, ?_, ?_⟩
  · intro hnd
    have hperm := reconcile_perm sr ls
    refine ⟨((hperm.map Lecture.lecture_id).nodup_iff).mpr hnd, ?_⟩
    intro l hl
    have hlsnd : ls.Nodup := hnd.of_map
    rw [hperm.count_eq]
    exact List.count_eq_one_of_mem hlsnd hl
  · intro hsr hls
    subst hsr
    rw [reconcile_via_loop]
    have hempty : ls.isEmpty = false := by
      cases ls with
      | nil => exact absurd rfl hls
      | cons a b => rfl
    simp only [List.isEmpty_nil, hempty, Bool.not_false, Bool.and_true, if_true]
    by_cases hrem :
        (reconLoop ls [⟨generalTitle, [], []⟩]).1.isEmpty = true
    · rw [if_pos hrem]
      simp [reconLoop, processSection]
    · rw [if_neg hrem]
      simp [reconLoop, processSection]

/-- Witness for C3 at the Scenario C course and at a section-free course. -/
theorem C3_reconcile_partition_witness :
    (lecturesScenC.map Lecture.lecture_id).Nodup ∧
    ((allVideos (reconcile sectionsScenC lecturesScenC)).map Lecture.lecture_id).Nodup ∧
    lecturesScenC ≠ [] ∧
    ((reconcile [] lecturesScenC).getD 0 emptySec).title = generalTitle := by
  refine ⟨by decide, ?_, by decide, ?_⟩
  · exact ((C3_reconcile_partition sectionsScenC lecturesScenC).2.1 (by decide)).1
  · exact (C3_reconcile_partition [] lecturesScenC).2.2 rfl (by decide)

/-! ## Claim C6: the match rules and declared-order tie-break -/

/-- Counterexample to C6 as stated: with week label `WeekA` and section
title `Part a`, none of the three claimed rules holds (in particular, the
label with the literal word `week` stripped is `WeekA` itself, which does
not occur in the title), yet the code assigns the lecture to that section
because it lowercases the label before stripping, and no catch-all section
is produced. -/
theorem C6_match_rule_counterexample :
    isSubstring (strL "WeekA") (strL "Part a") = false ∧
    isSubstring (normalizeStr (strL "WeekA")) (normalizeStr (strL "Part a")) = false ∧
    isSubstring (pyStrip (stripWeekWord (strL "WeekA"))) (strL "Part a") = false ∧
    reconcile [secPartA] [lecWeekA] = [⟨strL "Part a", [lecWeekA], [], []⟩] := by
  decide

/-- C6 (amended): a not-yet-assigned lecture is assigned to declared section
`i` exactly when the code-side rules match it against section `i` — (a)
exact substring, (b) substring after alphanumeric lowercase normalization,
(c) the label lowercased, with the literal word `week` removed, trimmed,
occurring in the title — and no earlier declared section matches it; the
Scenario C example produces one lecture per section plus `Extra` in the
catch-all. -/
theorem C6_match_order_amended :
    (∀ (sr : List RawSection) (ls : List Lecture) (i : Nat) (l : Lecture),
      ls.Nodup → sr ≠ [] → i < sr.length →
      (l ∈ ((reconcile sr ls).getD i emptySec).videos ↔
        l ∈ ls ∧ matchesSection l.week ((sr.getD i emptyRawSection).title) = true ∧
          ∀ j, j < i →
            matchesSection l.week ((sr.getD j emptyRawSection).title) = false)) ∧
    reconcile sectionsScenC lecturesScenC =
      [⟨strL "1주차: Intro", [⟨1, strL "t1", strL "1주차"⟩], [], []⟩,
       ⟨strL "2주차: Data", [⟨2, strL "t2", strL "2주차"⟩], [], []⟩,
       ⟨otherTitle, [⟨3, strL "t3", strL "Extra"⟩], [], []⟩] := by
  constructor
  · intro sr ls i l hnd hsr hi
    rw [reconcile_getD sr ls i hsr hi]
    exact reconLoop_mem_videos sr ls i l hnd hi
  · decide

/-- Witness for C6 (amended) at Scenario C, section 1 and the second
lecture. -/
theorem C6_match_order_witness :
    lecturesScenC.Nodup ∧ sectionsScenC ≠ [] ∧ 1 < sectionsScenC.length ∧
    ((⟨2, strL "t2", strL "2주차"⟩ : Lecture) ∈
        ((reconcile sectionsScenC lecturesScenC).getD 1 emptySec).videos ↔
      (⟨2, strL "t2", strL "2주차"⟩ : Lecture) ∈ lecturesScenC ∧
      matchesSection (strL "2주차")
        ((sectionsScenC.getD 1 emptyRawSection).title) = true ∧
      ∀ j, j < 1 →
        matchesSection (strL "2주차")
          ((sectionsScenC.getD j emptyRawSection).title) = false) := by
  refine ⟨by decide, by decide, by decide, ?_⟩
  exact (C6_match_order_amended).1 sectionsScenC lecturesScenC 1
    ⟨2, strL "t2", strL "2주차"⟩ (by decide) (by decide) (by decide)

/-! ## Claim C10: lectures with an effectively empty week label -/

/-- C10: with a non-empty declared section list, a lecture whose week label
is empty or becomes empty after lowercasing, removing the word `week` and
trimming always lands in the first declared section (the empty residue is a
substring of every title), and never in the catch-all that follows the
declared sections. -/
theorem C10_empty_week_first_section (sr : List RawSection) (ls : List Lecture)
    (l : Lecture) (hnd : ls.Nodup) (hsr : sr ≠ []) (hl : l ∈ ls)
    (hw : pyStrip (stripWeekWord (pyLower l.week)) = []) :
    l ∈ ((reconcile sr ls).getD 0 emptySec).videos ∧
    ∀ sec ∈ (reconcile sr ls).drop sr.length, l ∉ sec.videos := by
  have hmatch : ∀ t, matchesSection l.week t = true := by
    intro t
    unfold matchesSection
    rw [hw, isSubstring_nil]
    simp
  have h0 : 0 < sr.length := by
    cases sr with
    | nil => exact absurd rfl hsr
    | cons a b => simp
  constructor
  · rw [reconcile_getD sr ls 0 hsr h0, reconLoop_mem_videos sr ls 0 l hnd h0]
    exact ⟨hl, hmatch _, fun j hj => absurd hj (Nat.not_lt_zero j)⟩
  · intro sec hsec
    rw [reconcile_drop sr ls hsr] at hsec
    by_cases hrem : (reconLoop ls sr).1.isEmpty = true
    · rw [if_pos hrem] at hsec
      simp at hsec
    · rw [if_neg hrem] at hsec
      simp only [List.mem_singleton] at hsec
      subst hsec
      intro hlv
      simp only at hlv
      rw [reconLoop_rem sr ls hnd] at hlv
      have hall := (List.mem_filter.mp hlv).2
      rw [List.all_eq_true] at hall
      cases sr with
      | nil => exact hsr rfl
      | cons s rest =>
        have hs := hall s (List.mem_cons_self _ _)
        rw [hmatch s.title] at hs
        simp at hs

/-- Witness for C10: a lecture whose label is `WEEK` (the residue after
lowercasing, stripping and trimming is empty) is assigned to the first
Scenario C section and the catch-all tail holds nothing of it. -/
theorem C10_empty_week_first_section_witness :
    ([(⟨7, strL "t", strL "WEEK"⟩ : Lecture)].Nodup) ∧
    sectionsScenC ≠ [] ∧
    pyStrip (stripWeekWord (pyLower (strL "WEEK"))) = [] ∧
    (⟨7, strL "t", strL "WEEK"⟩ : Lecture) ∈
      ((reconcile sectionsScenC [⟨7, strL "t", strL "WEEK"⟩]).getD 0 emptySec).videos := by
  refine ⟨by decide, by decide, by decide, ?_⟩
  exact (C10_empty_week_first_section sectionsScenC [⟨7, strL "t", strL "WEEK"⟩]
    ⟨7, strL "t", strL "WEEK"⟩ (by decide) (by decide) (by decide) (by decide)).1

/-! ## Claim C5: cache hit condition, overwrite, and forced refresh -/

/-- C5: a stored entry is served only when its age is strictly below the
3600-second TTL and its cookies equal the caller's; on every miss the fresh
payload is stored under the caller's cookies and the current time (an
unconditional overwrite); a forced refresh ignores the stored entry
entirely. -/
theorem C5_cache_ttl_fingerprint (β : Type) (cache : Option (CacheEntry β))
    (now : Nat) (ck : List (String × String)) (force : Bool) (n : Nat)
    (p : List β) :
    ((fetch_all_courses cache now ck force n p).1.from_cache = some true ↔
      force = false ∧ ∃ e, cache = some e ∧ now - e.timestamp < 3600 ∧
        e.auth_cookies = ck) ∧
    (∀ e, cache = some e →
      (fetch_all_courses cache now ck force n p).1.from_cache = some true →
      (fetch_all_courses cache now ck force n p).1.courses = e.courses_data ∧
      (fetch_all_courses cache now ck force n p).2.1 = cache ∧
      (fetch_all_courses cache now ck force n p).2.2 = 0) ∧
    ((fetch_all_courses cache now ck force n p).1.from_cache = none →
      (fetch_all_courses cache now ck force n p).2.1 = some ⟨p, ck, now⟩ ∧
      (fetch_all_courses cache now ck force n p).1.courses = p) ∧
    (force = true →
      (fetch_all_courses cache now ck force n p).1.from_cache = none ∧
      fetch_all_courses cache now ck force n p =
        fetch_all_courses none now ck true n p) := by
  match cache, force with
  | none, false => simp [fetch_all_courses]
  | none, true => simp [fetch_all_courses]
  | some e, true => simp [fetch_all_courses]
  | some e, false =>
    simp only [fetch_all_courses]
    split
    next hcond =>
      have hA : now - e.timestamp < 3600 := by
        have h2 := (Bool.and_eq_true _ _).mp hcond
        simpa using h2.1
      have hB : e.auth_cookies = ck := by
        have h2 := (Bool.and_eq_true _ _).mp hcond
        simpa using h2.2
      refine ⟨?_, ?_, ?_, ?_⟩
      · constructor
        · intro _
          exact ⟨by trivial, e, rfl, hA, hB⟩
        · intro _
          rfl
      · intro e2 he2 _
        injection he2 with h3
        subst h3
        exact ⟨rfl, rfl, rfl⟩
      · intro hnone
        exact absurd hnone (by simp)
      · intro hf
        exact absurd hf (by simp)
    next hcond =>
      refine ⟨?_, ?_, ?_, ?_⟩
      · constructor
        · intro hc
          exact absurd hc (by simp)
        · rintro ⟨-, e2, he2, hA, hB⟩
          injection he2 with h3
          subst h3
          exact absurd (by simp [hA, hB]) hcond
      · intro e2 he2 hc
        exact absurd hc (by simp)
      · intro _
        exact ⟨rfl, rfl⟩
      · intro hf
        exact absurd hf (by simp)

/-- Witness for C5 at a concrete fresh entry, a stale entry, and a foreign
entry. -/
theorem C5_cache_ttl_fingerprint_witness :
    (fetch_all_courses (some ⟨[5], [("k", "v")], 1000⟩) 2000 [("k", "v")]
      false 3 [9]).1.from_cache = some true ∧
    (fetch_all_courses (some ⟨[5], [("k", "v")], 1000⟩) 4600 [("k", "v")]
      false 3 ([9] : List Nat)).2.1 = some ⟨[9], [("k", "v")], 4600⟩ ∧
    (fetch_all_courses (some ⟨[5], [("k", "v")], 1000⟩) 2000 [("x", "y")]
      false 3 ([9] : List Nat)).2.1 = some ⟨[9], [("x", "y")], 2000⟩ := by
  refine ⟨?_, ?_, ?_⟩
  · exact ((C5_cache_ttl_fingerprint Nat (some ⟨[5], [("k", "v")], 1000⟩) 2000
      [("k", "v")] false 3 [9]).1).mpr
      ⟨rfl, ⟨[5], [("k", "v")], 1000⟩, rfl, by decide, rfl⟩
  · exact ((C5_cache_ttl_fingerprint Nat (some ⟨[5], [("k", "v")], 1000⟩) 4600
      [("k", "v")] false 3 [9]).2.2.1 (by decide)).1
  · exact ((C5_cache_ttl_fingerprint Nat (some ⟨[5], [("k", "v")], 1000⟩) 2000
      [("x", "y")] false 3 [9]).2.2.1 (by decide)).1

/-! ## Claim C4: repeated discovery within the TTL window -/

/-- Counterexample to C4 as stated: a cold call followed by an in-window
call with the same cookies returns the same course list, but the two
responses are not byte-identical — the second carries `from_cache: true`
while the first has no such key. -/
theorem C4_response_not_identical_counterexample :
    (fetch_all_courses
        (fetch_all_courses (none : Option (CacheEntry Nat)) 1000 [("k", "v")]
          false 2 [10, 20]).2.1
        1800 [("k", "v")] false 2 [10, 20]).1.courses =
      (fetch_all_courses (none : Option (CacheEntry Nat)) 1000 [("k", "v")]
        false 2 [10, 20]).1.courses ∧
    (fetch_all_courses
        (fetch_all_courses (none : Option (CacheEntry Nat)) 1000 [("k", "v")]
          false 2 [10, 20]).2.1
        1800 [("k", "v")] false 2 [10, 20]).1 ≠
      (fetch_all_courses (none : Option (CacheEntry Nat)) 1000 [("k", "v")]
        false 2 [10, 20]).1 := by
  decide

/-- C4 (amended): a second in-window call with the same cookies and no
forced refresh performs no per-course collaborator calls, returns the same
course payload and count (the response differs only in the `from_cache`
marker), and leaves the cache entry in place; a call after TTL expiry or
with `force_refresh` stores a fresh entry stamped with the current time. -/
theorem C4_cache_second_call_amended (β : Type) (now1 now2 : Nat)
    (ck : List (String × String)) (n1 n2 : Nat) (p1 p2 : List β)
    (h : now2 - now1 < 3600) :
    (fetch_all_courses
        ((fetch_all_courses (none : Option (CacheEntry β)) now1 ck false n1 p1).2.1)
        now2 ck false n2 p2).2.2 = 0 ∧
    (fetch_all_courses
        ((fetch_all_courses (none : Option (CacheEntry β)) now1 ck false n1 p1).2.1)
        now2 ck false n2 p2).1.courses =
      (fetch_all_courses (none : Option (CacheEntry β)) now1 ck false n1 p1).1.courses ∧
    (fetch_all_courses
        ((fetch_all_courses (none : Option (CacheEntry β)) now1 ck false n1 p1).2.1)
        now2 ck false n2 p2).1.total_courses =
      (fetch_all_courses (none : Option (CacheEntry β)) now1 ck false n1 p1).1.total_courses ∧
    (fetch_all_courses
        ((fetch_all_courses (none : Option (CacheEntry β)) now1 ck false n1 p1).2.1)
        now2 ck false n2 p2).1.from_cache = some true ∧
    (fetch_all_courses
        ((fetch_all_courses (none : Option (CacheEntry β)) now1 ck false n1 p1).2.1)
        now2 ck false n2 p2).2.1 =
      (fetch_all_courses (none : Option (CacheEntry β)) now1 ck false n1 p1).2.1 ∧
    (∀ now3 n3 p3, 3600 ≤ now3 - now1 →
      (fetch_all_courses
        ((fetch_all_courses (none : Option (CacheEntry β)) now1 ck false n1 p1).2.1)
        now3 ck false n3 p3).2.1 = some ⟨p3, ck, now3⟩) ∧
    (∀ now3 n3 p3,
      (fetch_all_courses
        ((fetch_all_courses (none : Option (CacheEntry β)) now1 ck false n1 p1).2.1)
        now3 ck true n3 p3).2.1 = some ⟨p3, ck, now3⟩) := by
  have h1 : (fetch_all_courses (none : Option (CacheEntry β)) now1 ck false n1 p1).2.1
      = some ⟨p1, ck, now1⟩ := by
    simp [fetch_all_courses]
  rw [h1]
  have hcond : (now2 - now1 < 3600 && ([] ++ ck == ck)) = true := by
    simp [h]
  refine ⟨?_, ?_, ?_, ?_, ?_, ?_, ?_⟩
  · simp [fetch_all_courses, h]
  · simp [fetch_all_courses, h]
  · simp [fetch_all_courses, h]
  · simp [fetch_all_courses, h]
  · simp [fetch_all_courses, h]
  · intro now3 n3 p3 h3
    have : ¬ now3 - now1 < 3600 := by omega
    simp [fetch_all_courses, this]
  · intro now3 n3 p3
    simp [fetch_all_courses]

/-- Witness for C4 (amended) at concrete times and payloads. -/
theorem C4_cache_second_call_witness :
    (1800 - 1000 < 3600) ∧
    (fetch_all_courses
        ((fetch_all_courses (none : Option (CacheEntry Nat)) 1000 [("k", "v")]
          false 2 [10, 20]).2.1)
        1800 [("k", "v")] false 2 [10, 20]).2.2 = 0 := by
  refine ⟨by decide, ?_⟩
  exact (C4_cache_second_call_amended Nat 1000 1800 [("k", "v")] 2 2
    [10, 20] [10, 20] (by decide)).1

/-! ## Claim C2: cancellation and terminal states -/

/-- Counterexample to C2 as stated: cancel_task performs no state check, so
a job already in the terminal Completed state is accepted and its observable
state changes to cancelled. -/
theorem C2_cancel_accepts_terminal_counterexample :
    taskCompleted1.status.isTerminal = true ∧
    (cancel_task (some taskCompleted1)).1.1 = true ∧
    (cancel_task (some taskCompleted1)).2.map TaskStatus.status =
      some JStatus.cancelled ∧
    (cancel_task (some taskCompleted1)).2.map TaskStatus.status ≠
      some taskCompleted1.status := by
  decide

/-- C2 (amended): cancel_task is accepted for any registered job in any
state, terminal states included; it sets the stop flag, clears the pause
flag unconditionally, and moves the observable state to cancelled
immediately, leaving the counts in place — hence a terminal state other
than cancelled does not persist under a cancel request. -/
theorem C2_cancel_semantics_amended (t : TaskStatus) :
    (cancel_task (some t)).1.1 = true ∧
    ∃ t2, (cancel_task (some t)).2 = some t2 ∧
      t2.stopped = true ∧ t2.paused = false ∧ t2.status = JStatus.cancelled ∧
      t2.completed = t.completed ∧ t2.failed = t.failed ∧ t2.total = t.total ∧
      (t.status ≠ JStatus.cancelled → t2.status ≠ t.status) := by
  refine ⟨rfl, ?_⟩
  refine ⟨_, rfl, rfl, rfl, rfl, rfl, rfl, rfl, ?_⟩
  intro h hne
  exact h hne.symm

/-- Witness for C2 (amended) at a freshly created running job. -/
theorem C2_cancel_semantics_witness :
    (cancel_task (some (initDownloadTask 3))).1.1 = true ∧
    ∃ t2, (cancel_task (some (initDownloadTask 3))).2 = some t2 ∧
      t2.stopped = true ∧ t2.paused = false ∧ t2.status = JStatus.cancelled ∧
      t2.completed = (initDownloadTask 3).completed ∧
      t2.failed = (initDownloadTask 3).failed ∧
      t2.total = (initDownloadTask 3).total ∧
      ((initDownloadTask 3).status ≠ JStatus.cancelled →
        t2.status ≠ (initDownloadTask 3).status) :=
  C2_cancel_semantics_amended (initDownloadTask 3)

/-! ## Claim C9: pause and resume only while running -/

/-- C9: pause_task and resume_task succeed only while the status is running
(which is unchanged by an earlier pause, so a paused job still counts as
running); in that case pause sets the pause flag and resume clears it,
leaving status and counts alone; against any other status they leave the
record untouched and report a not-running error. -/
theorem C9_pause_resume_only_running (t : TaskStatus) :
    (t.status ≠ JStatus.running →
      pause_task (some t) = ((false, "Task is not running"), some t) ∧
      resume_task (some t) = ((false, "Task is not running"), some t)) ∧
    (t.status = JStatus.running →
      (pause_task (some t)).1.1 = true ∧
      (∃ t2, (pause_task (some t)).2 = some t2 ∧ t2.paused = true ∧
        t2.status = JStatus.running ∧ t2.stopped = t.stopped ∧
        t2.completed = t.completed ∧ t2.failed = t.failed ∧
        t2.total = t.total) ∧
      (resume_task (some t)).1.1 = true ∧
      (∃ t2, (resume_task (some t)).2 = some t2 ∧ t2.paused = false ∧
        t2.status = JStatus.running ∧ t2.stopped = t.stopped ∧
        t2.completed = t.completed ∧ t2.failed = t.failed ∧
        t2.total = t.total)) := by
  constructor
  · intro h
    constructor
    · simp [pause_task, h]
    · simp [resume_task, h]
  · intro h
    have h2 : ¬ t.status ≠ JStatus.running := fun hne => hne h
    refine ⟨?_, ?_, ?_, ?_⟩
    · simp [pause_task, h2]
    · refine ⟨{ t with
          paused := true,
          messages := t.messages ++ ["Task paused by user"] },
        ?_, rfl, h, rfl, rfl, rfl, rfl⟩
      simp [pause_task, h2]
    · simp [resume_task, h2]
    · refine ⟨{ t with
          paused := false,
          messages := t.messages ++ ["Task resumed by user"] },
        ?_, rfl, h, rfl, rfl, rfl, rfl⟩
      simp [resume_task, h2]

/-- Witness for C9 at a running job and at a cancelled job. -/
theorem C9_pause_resume_only_running_witness :
    ((initDownloadTask 2).status = JStatus.running ∧
      (pause_task (some (initDownloadTask 2))).1.1 = true) ∧
    (taskCompleted1.status ≠ JStatus.running ∧
      pause_task (some taskCompleted1) =
        ((false, "Task is not running"), some taskCompleted1)) := by
  constructor
  · exact ⟨rfl, ((C9_pause_resume_only_running (initDownloadTask 2)).2 rfl).1⟩
  · exact ⟨by decide, ((C9_pause_resume_only_running taskCompleted1).1 (by decide)).1⟩

/-! ## Claim C1: the counting invariant fails in the materials worker -/

/-- C1 evidence: one declared material that is a folder with two files makes
download_materials_task finish in the terminal Completed state with
`completed = 2`, `failed = 0` but `total = 1` — the count invariant
`completed + failed ≤ total` and the terminal equality both fail (line 1984
fixes `total` before folders are expanded and nothing ever updates it,
although the adjacent comment promises a dynamic update). -/
theorem C1_materials_counts_exceed_total :
    (download_materials_task initMaterialsTask false matSectionsFolder).status =
      JStatus.completed ∧
    (download_materials_task initMaterialsTask false matSectionsFolder).total = 1 ∧
    (download_materials_task initMaterialsTask false matSectionsFolder).completed = 2 ∧
    (download_materials_task initMaterialsTask false matSectionsFolder).failed = 0 ∧
    (download_materials_task initMaterialsTask false matSectionsFolder).completed +
        (download_materials_task initMaterialsTask false matSectionsFolder).failed >
      (download_materials_task initMaterialsTask false matSectionsFolder).total := by
  decide

/-! ## Claim C7 counterexample: the materials worker ignores both flags -/

/-- Counterexample to C7 as stated (for every job worker): with both the
pause flag and the stop flag already set, the materials worker still
processes every file and completes two items — more than one item beyond
the requests — because download_materials_task never reads either flag. -/
theorem C7_materials_ignores_flags_counterexample :
    ({ initMaterialsTask with paused := true, stopped := true } : TaskStatus).paused
      = true ∧
    ({ initMaterialsTask with paused := true, stopped := true } : TaskStatus).stopped
      = true ∧
    (download_materials_task
      { initMaterialsTask with paused := true, stopped := true }
      false matSectionsFolder).completed = 2 ∧
    (download_materials_task
      { initMaterialsTask with paused := true, stopped := true }
      false matSectionsFolder).completed >
      ({ initMaterialsTask with paused := true, stopped := true } : TaskStatus).completed
        + 1 ∧
    (download_materials_task
      { initMaterialsTask with paused := true, stopped := true }
      false matSectionsFolder).status = JStatus.completed := by
  decide

/-! ## Step lemmas for the batch download machine -/

/-- The item body never writes the pause flag. -/
theorem itemEffect_paused (t : TaskStatus) (lc lf n idx : Nat) (o : ItemOutcome) :
    (itemEffect t lc lf n idx o).1.paused = t.paused := by
  cases o <;> rfl

/-- The item body never writes the stop flag. -/
theorem itemEffect_stopped (t : TaskStatus) (lc lf n idx : Nat) (o : ItemOutcome) :
    (itemEffect t lc lf n idx o).1.stopped = t.stopped := by
  cases o <;> rfl

/-- The item body never writes the per-item status map. -/
theorem itemEffect_items (t : TaskStatus) (lc lf n idx : Nat) (o : ItemOutcome) :
    (itemEffect t lc lf n idx o).1.items = t.items := by
  cases o <;> rfl

/-- The item body never writes the total. -/
theorem itemEffect_total (t : TaskStatus) (lc lf n idx : Nat) (o : ItemOutcome) :
    (itemEffect t lc lf n idx o).1.total = t.total := by
  cases o <;> rfl

/-- The item body never writes the status field. -/
theorem itemEffect_status (t : TaskStatus) (lc lf n idx : Nat) (o : ItemOutcome) :
    (itemEffect t lc lf n idx o).1.status = t.status := by
  cases o <;> rfl

/-- The local counters after one item body. -/
theorem itemEffect_counts (t : TaskStatus) (lc lf n idx : Nat) (o : ItemOutcome) :
    (itemEffect t lc lf n idx o).2.1 =
      lc + (if o == ItemOutcome.dlSuccess then 1 else 0) ∧
    (itemEffect t lc lf n idx o).2.2 =
      lf + (if o == ItemOutcome.dlSuccess then 0 else 1) := by
  cases o <;> simp [itemEffect]

/-- The worker never writes the pause flag. -/
theorem workStep_paused (s : Sys) : (workStep s).task.paused = s.task.paused := by
  obtain ⟨env, t, pc, lc, lf⟩ := s
  cases pc <;> simp only [workStep] <;> (repeat' split) <;>
    simp [itemEffect_paused]

/-- The worker never writes the stop flag. -/
theorem workStep_stopped (s : Sys) : (workStep s).task.stopped = s.task.stopped := by
  obtain ⟨env, t, pc, lc, lf⟩ := s
  cases pc <;> simp only [workStep] <;> (repeat' split) <;>
    simp [itemEffect_stopped]

/-- A pause request either flips only the pause flag on, or does nothing. -/
theorem applyCtrl_pause (s : Sys) :
    applyCtrl pause_task s =
      (if s.task.status ≠ JStatus.running then s
       else { s with task := { s.task with
         paused := true,
         messages := s.task.messages ++ ["Task paused by user"] } }) := by
  by_cases h : s.task.status ≠ JStatus.running
  · simp [applyCtrl, pause_task, h]
  · simp [applyCtrl, pause_task, h]

/-- A resume request either flips only the pause flag off, or does nothing. -/
theorem applyCtrl_resume (s : Sys) :
    applyCtrl resume_task s =
      (if s.task.status ≠ JStatus.running then s
       else { s with task := { s.task with
         paused := false,
         messages := s.task.messages ++ ["Task resumed by user"] } }) := by
  by_cases h : s.task.status ≠ JStatus.running
  · simp [applyCtrl, resume_task, h]
  · simp [applyCtrl, resume_task, h]

/-- A cancel request sets the stop flag, clears the pause flag and sets the
cancelled status, unconditionally. -/
theorem applyCtrl_cancel (s : Sys) :
    applyCtrl cancel_task s =
      { s with task := { s.task with
        stopped := true,
        paused := false,
        status := JStatus.cancelled,
        messages := s.task.messages ++ ["Task cancelled by user"] } } := by
  simp [applyCtrl, cancel_task]

/-- Control requests leave the worker state alone. -/
theorem sysStep_ctrl_w (s : Sys) (e : Ev) (h : e ≠ Ev.work) :
    (sysStep s e).w = s.w := by
  cases e with
  | work => exact absurd rfl h
  | pauseReq =>
    rw [sysStep, applyCtrl_pause]
    split <;> rfl
  | resumeReq =>
    rw [sysStep, applyCtrl_resume]
    split <;> rfl
  | cancelReq =>
    rw [sysStep, applyCtrl_cancel]

/-- Control requests leave the observable completed count alone. -/
theorem sysStep_ctrl_completed (s : Sys) (e : Ev) (h : e ≠ Ev.work) :
    (sysStep s e).task.completed = s.task.completed := by
  cases e with
  | work => exact absurd rfl h
  | pauseReq =>
    rw [sysStep, applyCtrl_pause]
    split <;> rfl
  | resumeReq =>
    rw [sysStep, applyCtrl_resume]
    split <;> rfl
  | cancelReq =>
    rw [sysStep, applyCtrl_cancel]

/-- Once the stop flag is up, no step takes it down. -/
theorem sysStep_stopped_mono (s : Sys) (e : Ev) (h : s.task.stopped = true) :
    (sysStep s e).task.stopped = true := by
  cases e with
  | work => rw [sysStep, workStep_stopped]; exact h
  | pauseReq =>
    rw [sysStep, applyCtrl_pause]
    split <;> simpa using h
  | resumeReq =>
    rw [sysStep, applyCtrl_resume]
    split <;> simpa using h
  | cancelReq =>
    rw [sysStep, applyCtrl_cancel]

/-- Steps other than a cancel request never change the stop flag. -/
theorem sysStep_stopped_eq (s : Sys) (e : Ev) (h : e ≠ Ev.cancelReq) :
    (sysStep s e).task.stopped = s.task.stopped := by
  cases e with
  | work => exact workStep_stopped s
  | pauseReq =>
    rw [sysStep, applyCtrl_pause]
    split <;> rfl
  | resumeReq =>
    rw [sysStep, applyCtrl_resume]
    split <;> rfl
  | cancelReq => exact absurd rfl h

/-- Steps that are not a resume and not a cancel keep the pause flag up. -/
theorem sysStep_paused_keep (s : Sys) (e : Ev) (hp : s.task.paused = true)
    (h1 : e ≠ Ev.resumeReq) (h2 : e ≠ Ev.cancelReq) :
    (sysStep s e).task.paused = true := by
  cases e with
  | work => rw [sysStep, workStep_paused]; exact hp
  | pauseReq =>
    rw [sysStep, applyCtrl_pause]
    split
    · exact hp
    · rfl
  | resumeReq => exact absurd rfl h1
  | cancelReq => exact absurd rfl h2

/-- The single-writer invariant is preserved by every step. -/
theorem sysStep_inv (s : Sys) (e : Ev) (h : sysInv s) : sysInv (sysStep s e) := by
  cases e with
  | work =>
    obtain ⟨env, t, pc, lc, lf⟩ := s
    have h2 : t.completed ≤ lc := h
    clear h
    show (sysStep _ _).task.completed ≤ (sysStep _ _).w.loc_completed
    cases pc with
    | processItem idx =>
      simp only [sysStep, workStep]
      cases henv : env.outcomes.getD idx ItemOutcome.raiseErr <;>
        simp [itemEffect, henv] <;> omega
    | setup =>
      simp only [sysStep, workStep]
      repeat' split
      all_goals simpa using h2
    | checkStop idx =>
      simp only [sysStep, workStep]
      repeat' split
      all_goals simpa using h2
    | pauseWait idx =>
      simp only [sysStep, workStep]
      repeat' split
      all_goals simpa using h2
    | checkStop2 idx =>
      simp only [sysStep, workStep]
      repeat' split
      all_goals simpa using h2
    | finish =>
      simpa [sysStep, workStep] using h2
    | done =>
      simpa [sysStep, workStep] using h2
  | pauseReq =>
    unfold sysInv at h ⊢
    rw [sysStep, applyCtrl_pause]
    split <;> simpa using h
  | resumeReq =>
    unfold sysInv at h ⊢
    rw [sysStep, applyCtrl_resume]
    split <;> simpa using h
  | cancelReq =>
    unfold sysInv at h ⊢
    rw [sysStep, applyCtrl_cancel]
    simpa using h

/-- Under the invariant, the observable completed count never decreases. -/
theorem sysStep_completed_mono (s : Sys) (e : Ev) (h : sysInv s) :
    s.task.completed ≤ (sysStep s e).task.completed := by
  cases e with
  | work =>
    obtain ⟨env, t, pc, lc, lf⟩ := s
    have h2 : t.completed ≤ lc := h
    clear h
    show t.completed ≤ (sysStep _ _).task.completed
    cases pc with
    | processItem idx =>
      simp only [sysStep, workStep]
      cases henv : env.outcomes.getD idx ItemOutcome.raiseErr <;>
        simp [itemEffect, henv] <;> omega
    | setup =>
      simp only [sysStep, workStep]
      repeat' split
      all_goals simp
    | checkStop idx =>
      simp only [sysStep, workStep]
      repeat' split
      all_goals simp
    | pauseWait idx =>
      simp only [sysStep, workStep]
      repeat' split
      all_goals simp
    | checkStop2 idx =>
      simp only [sysStep, workStep]
      repeat' split
      all_goals simp
    | finish =>
      simp [sysStep, workStep]
    | done =>
      simp [sysStep, workStep]
  | pauseReq => rw [sysStep_ctrl_completed s Ev.pauseReq (by decide)]
  | resumeReq => rw [sysStep_ctrl_completed s Ev.resumeReq (by decide)]
  | cancelReq => rw [sysStep_ctrl_completed s Ev.cancelReq (by decide)]

/-- The invariant holds along every schedule. -/
theorem sysRun_inv (s : Sys) (evs : List Ev) (h : sysInv s) :
    sysInv (sysRun s evs) := by
  induction evs generalizing s with
  | nil => exact h
  | cons e rest ih =>
    rw [sysRun, List.foldl_cons]
    exact ih _ (sysStep_inv s e h)

/-- The observable completed count never decreases along any schedule. -/
theorem sysRun_completed_mono (s : Sys) (evs : List Ev) (h : sysInv s) :
    s.task.completed ≤ (sysRun s evs).task.completed := by
  induction evs generalizing s with
  | nil => exact Nat.le_refl _
  | cons e rest ih =>
    rw [sysRun, List.foldl_cons]
    exact (sysStep_completed_mono s e h).trans (ih _ (sysStep_inv s e h))

/-- The stop flag persists along every schedule. -/
theorem sysRun_stopped_mono (s : Sys) (evs : List Ev) (h : s.task.stopped = true) :
    (sysRun s evs).task.stopped = true := by
  induction evs generalizing s with
  | nil => exact h
  | cons e rest ih =>
    rw [sysRun, List.foldl_cons]
    exact ih _ (sysStep_stopped_mono s e h)

/-- One step with the stop flag up cannot raise the stopped-run measure. -/
theorem stopBound_step (s : Sys) (e : Ev) (h : s.task.stopped = true) :
    (sysStep s e).w.loc_completed + allowStop (sysStep s e) ≤
      s.w.loc_completed + allowStop s := by
  cases e with
  | work =>
    obtain ⟨env, t, pc, lc, lf⟩ := s
    have h2 : t.stopped = true := h
    clear h
    cases pc with
    | processItem idx =>
      simp only [sysStep, workStep]
      by_cases hlt : idx + 1 < env.outcomes.length
      · cases henv : env.outcomes.getD idx ItemOutcome.raiseErr <;>
          simp [itemEffect, henv, hlt, allowStop]
      · cases henv : env.outcomes.getD idx ItemOutcome.raiseErr <;>
          simp [itemEffect, henv, hlt, allowStop]
    | setup =>
      simp only [sysStep, workStep]
      repeat' split
      all_goals simp [allowStop]
    | checkStop idx =>
      simp [sysStep, workStep, h2, allowStop]
    | pauseWait idx =>
      simp [sysStep, workStep, h2, allowStop]
    | checkStop2 idx =>
      simp [sysStep, workStep, h2, allowStop]
    | finish =>
      simp [sysStep, workStep, allowStop]
    | done =>
      simp [sysStep, workStep, allowStop]
  | pauseReq =>
    have hw := sysStep_ctrl_w s Ev.pauseReq (by decide)
    simp [allowStop, hw]
  | resumeReq =>
    have hw := sysStep_ctrl_w s Ev.resumeReq (by decide)
    simp [allowStop, hw]
  | cancelReq =>
    have hw := sysStep_ctrl_w s Ev.cancelReq (by decide)
    simp [allowStop, hw]

/-- Along any schedule with the stop flag up, the local completed counter
gains at most the one item already in flight. -/
theorem stopBound_run (s : Sys) (evs : List Ev) (h : s.task.stopped = true) :
    (sysRun s evs).w.loc_completed + allowStop (sysRun s evs) ≤
      s.w.loc_completed + allowStop s := by
  induction evs generalizing s with
  | nil => exact Nat.le_refl _
  | cons e rest ih =>
    rw [sysRun, List.foldl_cons]
    exact (ih _ (sysStep_stopped_mono s e h)).trans (stopBound_step s e h)

/-- The stopped-run measure is at most one. -/
theorem allowStop_le_one (s : Sys) : allowStop s ≤ 1 := by
  obtain ⟨env, t, pc, lc, lf⟩ := s
  cases pc <;> simp [allowStop]

/-- The paused-run measure is at most one. -/
theorem allowPause_le_one (s : Sys) : allowPause s ≤ 1 := by
  obtain ⟨env, t, pc, lc, lf⟩ := s
  cases pc <;> simp [allowPause]

/-- One step with the pause flag up and the stop flag down, other than a
resume or cancel request, cannot raise the paused-run measure. -/
theorem pauseBound_step (s : Sys) (e : Ev) (hp : s.task.paused = true)
    (hs : s.task.stopped = false) (h1 : e ≠ Ev.resumeReq) (h2 : e ≠ Ev.cancelReq) :
    (sysStep s e).w.loc_completed + allowPause (sysStep s e) ≤
      s.w.loc_completed + allowPause s := by
  cases e with
  | work =>
    obtain ⟨env, t, pc, lc, lf⟩ := s
    have hp2 : t.paused = true := hp
    have hs2 : t.stopped = false := hs
    clear hp hs
    cases pc with
    | processItem idx =>
      simp only [sysStep, workStep]
      by_cases hlt : idx + 1 < env.outcomes.length
      · cases henv : env.outcomes.getD idx ItemOutcome.raiseErr <;>
          simp [itemEffect, henv, hlt, allowPause]
      · cases henv : env.outcomes.getD idx ItemOutcome.raiseErr <;>
          simp [itemEffect, henv, hlt, allowPause]
    | setup =>
      simp only [sysStep, workStep]
      repeat' split
      all_goals simp [allowPause]
    | checkStop idx =>
      simp [sysStep, workStep, hs2, allowPause]
    | pauseWait idx =>
      simp [sysStep, workStep, hp2, hs2, allowPause]
    | checkStop2 idx =>
      simp [sysStep, workStep, hs2, allowPause]
    | finish =>
      simp [sysStep, workStep, allowPause]
    | done =>
      simp [sysStep, workStep, allowPause]
  | pauseReq =>
    have hw := sysStep_ctrl_w s Ev.pauseReq (by decide)
    simp [allowPause, hw]
  | resumeReq => exact absurd rfl h1
  | cancelReq => exact absurd rfl h2

/-- Along any resume-free and cancel-free schedule started with the pause
flag up, the local completed counter gains at most the one item already past
the pause poll. -/
theorem pauseBound_run (s : Sys) (evs : List Ev) (hp : s.task.paused = true)
    (hs : s.task.stopped = false)
    (hev : ∀ e ∈ evs, e ≠ Ev.resumeReq ∧ e ≠ Ev.cancelReq) :
    (sysRun s evs).w.loc_completed + allowPause (sysRun s evs) ≤
      s.w.loc_completed + allowPause s := by
  induction evs generalizing s with
  | nil => exact Nat.le_refl _
  | cons e rest ih =>
    have he := hev e (List.mem_cons_self _ _)
    have hp2 : (sysStep s e).task.paused = true :=
      sysStep_paused_keep s e hp he.1 he.2
    have hs2 : (sysStep s e).task.stopped = false := by
      rw [sysStep_stopped_eq s e he.2]
      exact hs
    rw [sysRun, List.foldl_cons]
    refine (ih _ hp2 hs2 ?_).trans (pauseBound_step s e hp hs he.1 he.2)
    intro e2 hm
    exact hev e2 (List.mem_cons_of_mem _ hm)

/-! ## Claim C7 (amended): the batch download worker and its flags -/

/-- C7 (amended, scoped to the batch download worker download_task; the
materials worker consults neither flag): the item body reads neither flag;
the stop flag is honoured at the boundary check before the next item starts;
a paused worker spins in the poll loop without any state change; the
observable completed count never decreases under any schedule of control
requests; after a cancel request at most one further item completes; and
after a pause request, with no resume or cancel, at most one further item
completes. -/
theorem C7_download_flag_boundaries_amended :
    (∀ (s : Sys) (idx : Nat) (p q : Bool), s.w.pc = WPC.processItem idx →
      workStep (setFlags s p q) = setFlags (workStep s) p q) ∧
    (∀ (s : Sys) (idx : Nat), s.w.pc = WPC.checkStop idx → s.task.stopped = true →
      (workStep s).w.pc = WPC.finish ∧
      (workStep s).w.loc_completed = s.w.loc_completed ∧
      (workStep s).task.completed = s.task.completed) ∧
    (∀ (s : Sys) (idx : Nat), s.w.pc = WPC.pauseWait idx → s.task.paused = true →
      s.task.stopped = false → workStep s = s) ∧
    (∀ (s : Sys) (evs : List Ev), sysInv s →
      s.task.completed ≤ (sysRun s evs).task.completed) ∧
    (∀ (s : Sys) (evs1 evs2 : List Ev), sysInv s →
      (sysRun s (evs1 ++ Ev.cancelReq :: evs2)).task.completed ≤
        (sysRun s evs1).w.loc_completed + 1) ∧
    (∀ (s : Sys) (evs : List Ev), sysInv s → s.task.paused = true →
      s.task.stopped = false →
      (∀ e ∈ evs, e ≠ Ev.resumeReq ∧ e ≠ Ev.cancelReq) →
      (sysRun s evs).task.completed ≤ s.w.loc_completed + 1) := by
  refine ⟨?_, ?_, ?_, ?_, ?_, ?_⟩
  · intro s idx p q h
    obtain ⟨env, t, pc, lc, lf⟩ := s
    simp only at h
    subst h
    simp only [workStep, setFlags]
    generalize env.outcomes.getD idx ItemOutcome.raiseErr = o
    cases o <;> simp [itemEffect]
  · intro s idx h hstop
    obtain ⟨env, t, pc, lc, lf⟩ := s
    simp only at h
    subst h
    have h2 : t.stopped = true := hstop
    simp [workStep, h2]
  · intro s idx h hp hs
    obtain ⟨env, t, pc, lc, lf⟩ := s
    simp only at h
    subst h
    have hp2 : t.paused = true := hp
    have hs2 : t.stopped = false := hs
    simp [workStep, hp2, hs2]
  · exact fun s evs h => sysRun_completed_mono s evs h
  · intro s evs1 evs2 hinv
    have key : sysRun s (evs1 ++ Ev.cancelReq :: evs2) =
        sysRun (sysStep (sysRun s evs1) Ev.cancelReq) evs2 := by
      simp [sysRun, List.foldl_append]
    rw [key]
    have hinv1 : sysInv (sysRun s evs1) := sysRun_inv s evs1 hinv
    have hinv2 : sysInv (sysStep (sysRun s evs1) Ev.cancelReq) :=
      sysStep_inv _ _ hinv1
    have hstop : (sysStep (sysRun s evs1) Ev.cancelReq).task.stopped = true := by
      rw [sysStep, applyCtrl_cancel]
    have hw : (sysStep (sysRun s evs1) Ev.cancelReq).w = (sysRun s evs1).w :=
      sysStep_ctrl_w _ Ev.cancelReq (by decide)
    have hb := stopBound_run (sysStep (sysRun s evs1) Ev.cancelReq) evs2 hstop
    have hinvf : sysInv (sysRun (sysStep (sysRun s evs1) Ev.cancelReq) evs2) :=
      sysRun_inv _ evs2 hinv2
    have ha1 : allowStop (sysStep (sysRun s evs1) Ev.cancelReq) =
        allowStop (sysRun s evs1) := by
      unfold allowStop
      rw [hw]
    have ha2 : allowStop (sysRun s evs1) ≤ 1 := allowStop_le_one _
    rw [hw, ha1] at hb
    unfold sysInv at hinvf
    omega
  · intro s evs hinv hp hs hev
    have hb := pauseBound_run s evs hp hs hev
    have hinvf : sysInv (sysRun s evs) := sysRun_inv s evs hinv
    have ha := allowPause_le_one s
    unfold sysInv at hinvf
    omega

/-- Witness for C7 (amended): a three-item batch, one item processed, then a
cancel request followed by arbitrary further work. -/
theorem C7_download_flag_boundaries_witness :
    sysInv (initSys envThreeOk) ∧
    (sysRun (initSys envThreeOk)
        (List.replicate 5 Ev.work ++ Ev.cancelReq :: List.replicate 12 Ev.work)
      ).task.completed ≤
      (sysRun (initSys envThreeOk) (List.replicate 5 Ev.work)).w.loc_completed + 1 := by
  constructor
  · unfold sysInv
    decide
  · exact (C7_download_flag_boundaries_amended).2.2.2.2.1 (initSys envThreeOk)
      (List.replicate 5 Ev.work) (List.replicate 12 Ev.work)
      (by unfold sysInv; decide)

/-- Running a concatenated schedule runs the pieces in order. -/
theorem sysRun_append (s : Sys) (l1 l2 : List Ev) :
    sysRun s (l1 ++ l2) = sysRun (sysRun s l1) l2 := by
  simp [sysRun, List.foldl_append]

/-- Positional read just past a prefix. -/
theorem getD_append_len (l1 l2 : List ItemOutcome) (a d : ItemOutcome) :
    (l1 ++ a :: l2).getD l1.length d = a := by
  induction l1 with
  | nil => rfl
  | cons c t ih => simpa using ih

/-- Four worker steps from a boundary run exactly one item: the stop check,
the pause poll, the re-check, and the item body. -/
theorem workRun_four (env : DLEnv) (t : TaskStatus) (lc lf idx : Nat)
    (hp : t.paused = false) (hs : t.stopped = false) :
    sysRun ⟨env, t, ⟨WPC.checkStop idx, lc, lf⟩⟩ (List.replicate 4 Ev.work) =
      ⟨env,
       (itemEffect { t with current_lecture_index := idx } lc lf
          env.outcomes.length idx (env.outcomes.getD idx ItemOutcome.raiseErr)).1,
       ⟨(if idx + 1 < env.outcomes.length then WPC.checkStop (idx + 1)
         else WPC.finish),
        (itemEffect { t with current_lecture_index := idx } lc lf
          env.outcomes.length idx (env.outcomes.getD idx ItemOutcome.raiseErr)).2.1,
        (itemEffect { t with current_lecture_index := idx } lc lf
          env.outcomes.length idx (env.outcomes.getD idx ItemOutcome.raiseErr)).2.2⟩⟩ := by
  show sysRun _ [Ev.work, Ev.work, Ev.work, Ev.work] = _
  simp only [sysRun, List.foldl_cons, List.foldl_nil, sysStep]
  rw [workStep, workStep, workStep, workStep]
  simp [hp, hs]

/-- A control-free run of the whole item loop from a boundary: it consumes
every remaining item, ends in the done state with status Completed, adds one
local completed count per successful download and one local failed count per
failing item, and never touches the per-item map or the total. -/
theorem workRun_loop : ∀ (os2 os1 : List ItemOutcome) (rl sf : Bool)
    (t : TaskStatus) (lc lf : Nat), t.paused = false → t.stopped = false →
    (sysRun ⟨⟨os1 ++ os2, rl, sf⟩, t,
        ⟨(if os2.isEmpty then WPC.finish else WPC.checkStop os1.length), lc, lf⟩⟩
        (List.replicate (4 * os2.length + 2) Ev.work)).w.pc = WPC.done ∧
    (sysRun ⟨⟨os1 ++ os2, rl, sf⟩, t,
        ⟨(if os2.isEmpty then WPC.finish else WPC.checkStop os1.length), lc, lf⟩⟩
        (List.replicate (4 * os2.length + 2) Ev.work)).task.status =
      JStatus.completed ∧
    (sysRun ⟨⟨os1 ++ os2, rl, sf⟩, t,
        ⟨(if os2.isEmpty then WPC.finish else WPC.checkStop os1.length), lc, lf⟩⟩
        (List.replicate (4 * os2.length + 2) Ev.work)).w.loc_completed =
      lc + succCount os2 ∧
    (sysRun ⟨⟨os1 ++ os2, rl, sf⟩, t,
        ⟨(if os2.isEmpty then WPC.finish else WPC.checkStop os1.length), lc, lf⟩⟩
        (List.replicate (4 * os2.length + 2) Ev.work)).w.loc_failed =
      lf + failCount os2 ∧
    (sysRun ⟨⟨os1 ++ os2, rl, sf⟩, t,
        ⟨(if os2.isEmpty then WPC.finish else WPC.checkStop os1.length), lc, lf⟩⟩
        (List.replicate (4 * os2.length + 2) Ev.work)).task.items = t.items ∧
    (sysRun ⟨⟨os1 ++ os2, rl, sf⟩, t,
        ⟨(if os2.isEmpty then WPC.finish else WPC.checkStop os1.length), lc, lf⟩⟩
        (List.replicate (4 * os2.length + 2) Ev.work)).task.total = t.total := by
  intro os2
  induction os2 with
  | nil =>
    intro os1 rl sf t lc lf hp hs
    show _ ∧ _
    simp [sysRun, List.replicate, sysStep, workStep, succCount, failCount]
  | cons o rest ih =>
    intro os1 rl sf t lc lf hp hs
    have harith : 4 * (o :: rest).length + 2 = 4 + (4 * rest.length + 2) := by
      simp [List.length_cons]
      omega
    rw [harith, List.replicate_add, sysRun_append]
    simp only [List.isEmpty_cons, Bool.false_eq_true, if_false]
    rw [workRun_four _ _ _ _ _ hp hs]
    have henv : ((⟨os1 ++ o :: rest, rl, sf⟩ : DLEnv)).outcomes.getD os1.length
        ItemOutcome.raiseErr = o := getD_append_len os1 rest o ItemOutcome.raiseErr
    rw [henv]
    have hpc : (if os1.length + 1 < ((⟨os1 ++ o :: rest, rl, sf⟩ : DLEnv)).outcomes.length
          then WPC.checkStop (os1.length + 1) else WPC.finish) =
        (if rest.isEmpty then WPC.finish else WPC.checkStop (os1 ++ [o]).length) := by
      cases rest with
      | nil => simp
      | cons r rs =>
        have hlt : os1.length + 1 < (os1 ++ o :: r :: rs).length := by
          simp
        simp [hlt]
    rw [hpc]
    have henv2 : os1 ++ o :: rest = (os1 ++ [o]) ++ rest := by
      simp
    have hp2 : (itemEffect { t with current_lecture_index := os1.length } lc lf
        (os1 ++ o :: rest).length os1.length o).1.paused = false := by
      rw [itemEffect_paused]
      exact hp
    have hs2 : (itemEffect { t with current_lecture_index := os1.length } lc lf
        (os1 ++ o :: rest).length os1.length o).1.stopped = false := by
      rw [itemEffect_stopped]
      exact hs
    have key := ih (os1 ++ [o]) rl sf
      (itemEffect { t with current_lecture_index := os1.length } lc lf
        (os1 ++ o :: rest).length os1.length o).1
      (itemEffect { t with current_lecture_index := os1.length } lc lf
        (os1 ++ o :: rest).length os1.length o).2.1
      (itemEffect { t with current_lecture_index := os1.length } lc lf
        (os1 ++ o :: rest).length os1.length o).2.2
      hp2 hs2
    rw [← henv2] at key
    have hcounts := itemEffect_counts { t with current_lecture_index := os1.length }
      lc lf (os1 ++ o :: rest).length os1.length o
    have hitems := itemEffect_items { t with current_lecture_index := os1.length }
      lc lf (os1 ++ o :: rest).length os1.length o
    have htotal := itemEffect_total { t with current_lecture_index := os1.length }
      lc lf (os1 ++ o :: rest).length os1.length o
    refine ⟨key.1, key.2.1, ?_, ?_, ?_, ?_⟩
    · rw [key.2.2.1, hcounts.1]
      cases o <;> simp [succCount, List.countP_cons] <;> omega
    · rw [key.2.2.2.1, hcounts.2]
      cases o <;> simp [failCount, List.countP_cons] <;> omega
    · rw [key.2.2.2.2.1, hitems]
    · rw [key.2.2.2.2.2, htotal]

/-! ## Claim C8: per-item failure isolation in the batch download worker -/

/-- Counterexample to C8 as stated: in a one-item batch whose download
fails, the run ends with `failed = 1` but the per-item status map is still
empty — download_task never writes the `items` map it initializes, so the
failed item is not marked Failed there. -/
theorem C8_items_map_counterexample :
    (sysRun (initSys envOneFail) (List.replicate 7 Ev.work)).task.failed = 1 ∧
    (sysRun (initSys envOneFail) (List.replicate 7 Ev.work)).task.items = [] ∧
    (sysRun (initSys envOneFail) (List.replicate 7 Ev.work)).task.status =
      JStatus.completed := by
  decide

/-- C8 (amended): for the batch download worker, a failure while processing
one item is isolated — the worker's failed counter is incremented, a message
is appended to the job log, and the run still consumes every item and
terminates in the Completed state (the per-item status map is never written
by this worker and stays empty); an uncaught failure in the worker prologue
instead terminates the job in the Error state. -/
theorem C8_failure_isolation_amended :
    (∀ env : DLEnv, env.reqLocal = false → env.setupFails = false →
      (sysRun (initSys env)
        (List.replicate (4 * env.outcomes.length + 3) Ev.work)).w.pc = WPC.done ∧
      (sysRun (initSys env)
        (List.replicate (4 * env.outcomes.length + 3) Ev.work)).task.status =
        JStatus.completed ∧
      (sysRun (initSys env)
        (List.replicate (4 * env.outcomes.length + 3) Ev.work)).task.items = [] ∧
      (sysRun (initSys env)
        (List.replicate (4 * env.outcomes.length + 3) Ev.work)).w.loc_completed =
        succCount env.outcomes ∧
      (sysRun (initSys env)
        (List.replicate (4 * env.outcomes.length + 3) Ev.work)).w.loc_failed =
        failCount env.outcomes) ∧
    (∀ env : DLEnv, env.setupFails = true →
      (sysRun (initSys env) [Ev.work]).task.status = JStatus.error ∧
      (sysRun (initSys env) [Ev.work]).w.pc = WPC.done) ∧
    (∀ (s : Sys) (idx : Nat), s.w.pc = WPC.processItem idx →
      s.env.outcomes.getD idx ItemOutcome.raiseErr ≠ ItemOutcome.dlSuccess →
      (workStep s).w.loc_failed = s.w.loc_failed + 1 ∧
      (workStep s).task.messages.length > s.task.messages.length) := by
  refine ⟨?_, ?_, ?_⟩
  · intro env h1 h2
    obtain ⟨os, rl, sf⟩ := env
    simp only at h1 h2
    subst h1
    subst h2
    have harith : 4 * os.length + 3 = 1 + (4 * os.length + 2) := by omega
    rw [harith, List.replicate_add, sysRun_append]
    have hsetup : sysRun (initSys ⟨os, false, false⟩) (List.replicate 1 Ev.work) =
        ⟨⟨os, false, false⟩, initDownloadTask os.length,
         ⟨(if os.isEmpty then WPC.finish else WPC.checkStop 0), 0, 0⟩⟩ := by
      simp [sysRun, sysStep, workStep, initSys, List.isEmpty_iff]
    rw [hsetup]
    have key := workRun_loop os [] false false (initDownloadTask os.length) 0 0 rfl rfl
    simp only [List.nil_append, List.length_nil] at key
    refine ⟨key.1, key.2.1, ?_, ?_, ?_⟩
    · rw [key.2.2.2.2.1]
      rfl
    · rw [key.2.2.1]
      simp
    · rw [key.2.2.2.1]
      simp
  · intro env h
    obtain ⟨os, rl, sf⟩ := env
    simp only at h
    subst h
    simp [sysRun, sysStep, workStep, initSys]
  · intro s idx h ho
    obtain ⟨env, t, pc, lc, lf⟩ := s
    simp only at h ho
    subst h
    simp only [workStep]
    cases henv : env.outcomes.getD idx ItemOutcome.raiseErr
    · simp [itemEffect]
    · simp [itemEffect]
    · rw [henv] at ho
      exact absurd rfl ho
    · simp [itemEffect]
    · simp [itemEffect]

/-- Witness for C8 (amended) at a one-item batch that fails and a batch
whose prologue raises. -/
theorem C8_failure_isolation_witness :
    (envOneFail.reqLocal = false ∧ envOneFail.setupFails = false ∧
      (sysRun (initSys envOneFail)
        (List.replicate (4 * envOneFail.outcomes.length + 3) Ev.work)).task.status =
        JStatus.completed ∧
      (sysRun (initSys envOneFail)
        (List.replicate (4 * envOneFail.outcomes.length + 3) Ev.work)).w.loc_failed =
        failCount envOneFail.outcomes) ∧
    ((sysRun (initSys ⟨[], false, true⟩) [Ev.work]).task.status = JStatus.error) := by
  constructor
  · exact ⟨rfl, rfl,
      ((C8_failure_isolation_amended).1 envOneFail rfl rfl).2.1,
      ((C8_failure_isolation_amended).1 envOneFail rfl rfl).2.2.2.2⟩
  · exact ((C8_failure_isolation_amended).2.1 ⟨[], false, true⟩ rfl).1
